import Mathlib

/-!
Verification model of the Blender add-on FrameAndCameraSelector.py
(Multiple Frame and Camera Batch Render).  The Python source is embedded
shallowly: mutable methods become pure state-passing functions, the host
scene becomes an explicit record, and exceptions become Except values.
-/

/-- The whitespace characters stripped by the Python builtin int when it
parses a string (space, tab, newline, carriage return, vertical tab,
form feed). -/
def pyIsSpace (c : Char) : Bool :=
  c = ' ' || c = '\t' || c = '\n' || c = '\r' || c = '\x0b' || c = '\x0c'

/-- Strip leading and trailing whitespace from a character list, as the
Python builtin int does before parsing. -/
def pyStrip (cs : List Char) : List Char :=
  ((cs.dropWhile pyIsSpace).reverse.dropWhile pyIsSpace).reverse

/-- Numeric value of a list of decimal digit characters. -/
def digitsToNat (cs : List Char) : Nat :=
  cs.foldl (fun n c => 10 * n + (c.toNat - 48)) 0

/-- Model of the Python builtin int applied to a string (here a character
list): optional surrounding whitespace, an optional single sign, then a
nonempty run of decimal digits.  Returns none where Python raises
ValueError.  (Underscore digit separators of Python numerals are not
modelled; no claim depends on them.) -/
def pyInt (cs : List Char) : Option Int :=
  match pyStrip cs with
  | [] => none
  | c :: rest =>
    if c = '-' then
      if rest ≠ [] ∧ rest.all Char.isDigit then some (-(digitsToNat rest : Int)) else none
    else if c = '+' then
      if rest ≠ [] ∧ rest.all Char.isDigit then some (digitsToNat rest : Int) else none
    else
      if (c :: rest).all Char.isDigit then some (digitsToNat (c :: rest) : Int) else none

/-- Model of the Python str.split method with a single separator
character: always returns one more piece than there are separators, so
the empty list splits to one empty piece. -/
def splitOnChar (sep : Char) : List Char → List (List Char)
  | [] => [[]]
  | c :: rest =>
    if c = sep then [] :: splitOnChar sep rest
    else
      match splitOnChar sep rest with
      | t :: ts => (c :: t) :: ts
      | [] => [[c]]

/-- Model of the Python range function as a list: pyRange a b is the
ascending list a, a+1, ..., b-1, empty when b is at most a. -/
def pyRange (a b : Int) : List Int :=
  (List.range (b - a).toNat).map (fun i => a + (i : Int))

/-- One iteration of the loop body of RenderJob private method
parse frame ranges (source lines 81 to 89) on a single comma-separated
token.  A token containing a dash must split into exactly two pieces
that both parse as integers, else the uncaught ValueError of the source
is modelled as an error value carrying the token; a valid pair start,
end contributes range(start, end + 1).  A token without a dash is parsed
as a single integer; on failure it is skipped and the printed diagnostic
(identified here by the offending token) is recorded. -/
def parseToken (tok : List Char) : Except (List Char) (List Int × List (List Char)) :=
  if tok.contains '-' then
    match splitOnChar '-' tok with
    | [a, b] =>
      match pyInt a, pyInt b with
      | some s, some e => .ok (pyRange s (e + 1), [])
      | _, _ => .error tok
    | _ => .error tok
  else
    match pyInt tok with
    | some n => .ok ([n], [])
    | none => .ok ([], [tok])

/-- The loop of parse frame ranges over the list of comma-separated
tokens, accumulating frames and diagnostics in order; the first token
that raises aborts the whole call, as the uncaught exception does in
the source. -/
def parseFrames : List (List Char) → Except (List Char) (List Int × List (List Char))
  | [] => .ok ([], [])
  | t :: ts =>
    match parseToken t with
    | .error e => .error e
    | .ok (fs, ds) =>
      match parseFrames ts with
      | .error e => .error e
      | .ok (fs', ds') => .ok (fs ++ fs', ds ++ ds')

/-- RenderJob private method parse frame ranges (source lines 79 to 90):
split the input on commas and process each token in order.  The ok value
carries the frame list and the list of diagnostics printed for skipped
tokens; an error value models the uncaught exception raised on a
malformed dash token. -/
def parse_frame_ranges (s : String) : Except (List Char) (List Int × List (List Char)) :=
  parseFrames (splitOnChar ',' s.toList)

/-- A token that is a nonempty run of decimal digits: the canonical form
of a single nonnegative decimal integer in the claims grammar.  Signed
integers cannot occur as single tokens there because the minus sign is
the range separator of the start-end form. -/
def isDigitToken (t : List Char) : Bool :=
  !t.isEmpty && t.all Char.isDigit

/-- Follows the claims wording for claim C1: a token is well formed when
it is a single decimal integer or a start-end pair of integers with
start at most end. -/
def wellFormedToken (t : List Char) : Bool :=
  isDigitToken t ||
    (match splitOnChar '-' t with
     | [a, b] => isDigitToken a && isDigitToken b && decide (digitsToNat a ≤ digitsToNat b)
     | _ => false)

/-- Follows the claims wording for claim C1: the expansion of a well
formed token, a one element list for a single integer and the inclusive
ascending sequence from start to end for a start-end pair. -/
def claimExpansion (t : List Char) : List Int :=
  if isDigitToken t then [(digitsToNat t : Int)]
  else
    match splitOnChar '-' t with
    | [a, b] => pyRange (digitsToNat a) ((digitsToNat b : Int) + 1)
    | _ => []

/-- A token containing a dash that the source parses without raising:
it splits on the dash into exactly two pieces and both parse as
integers. -/
def validRangeToken (t : List Char) : Bool :=
  match splitOnChar '-' t with
  | [a, b] => (pyInt a).isSome && (pyInt b).isSome
  | _ => false

/-- Follows the amended wording of claim C2: frames contributed by one
token when no token raises.  A valid start-end pair contributes its
range expansion; a plain token contributes its integer when it parses
and nothing otherwise. -/
def lenientFrames (t : List Char) : List Int :=
  if t.contains '-' then
    match splitOnChar '-' t with
    | [a, b] =>
      match pyInt a, pyInt b with
      | some s, some e => pyRange s (e + 1)
      | _, _ => []
    | _ => []
  else
    match pyInt t with
    | some n => [n]
    | none => []

/-- Follows the amended wording of claim C2: the diagnostics emitted for
one token, exactly the plain tokens that fail to parse as an integer. -/
def lenientDiags (t : List Char) : List (List Char) :=
  if t.contains '-' then []
  else
    match pyInt t with
    | some _ => []
    | none => [t]

/-- The per-camera user configuration (class CameraSettings, source
lines 14 to 30): the assigned camera identified by name when there is
one, the frame-ranges string, and the preview flag. -/
structure CameraSettings where
  camera : Option String
  frame_ranges : String
  show_preview : Bool
deriving DecidableEq, Repr

/-- The host scene state the add-on reads and writes: the current
frame, the active camera, the render output filepath, the overwrite
existing output flag, the configured image file format, and the
directory of the blend file used to resolve relative paths. -/
structure Scene where
  frame_current : Int
  camera : Option String
  filepath : String
  use_overwrite : Bool
  file_format : String
  blend_dir : String
deriving DecidableEq, Repr

/-- String prefix test written over the character lists so that it
evaluates inside the kernel. -/
def strStartsWith (s pre : String) : Bool :=
  pre.toList.isPrefixOf s.toList

/-- String suffix test written over the character lists so that it
evaluates inside the kernel. -/
def strEndsWith (s suf : String) : Bool :=
  suf.toList.isSuffixOf s.toList

/-- Lowercasing of a string written over the character list so that it
evaluates inside the kernel; models the Python str.lower method on the
format names the host uses. -/
def strToLower (s : String) : String :=
  String.mk (s.toList.map Char.toLower)

/-- Model of os.path.join with posix separators for the two-argument
call at source line 110: an absolute second component wins, otherwise
the components are joined with a single separator. -/
def os_path_join (d f : String) : String :=
  if strStartsWith f "/" then f
  else if d = "" then f
  else if strEndsWith d "/" then d ++ f
  else d ++ "/" ++ f

/-- Model of bpy.path.abspath at source line 113: a path beginning with
a double slash is relative to the directory of the blend file. -/
def bpy_path_abspath (blend_dir p : String) : String :=
  if strStartsWith p "//" then blend_dir ++ p.drop 2 else p

/-- The output filepath built at source lines 108 to 110 for one frame:
the output directory recorded at job construction joined with the
camera name, the frame number, and the lowercased file format as
extension. -/
def frameOutputPath (original name : String) (frame : Int) (fmt : String) : String :=
  os_path_join original (name ++ "_frame" ++ toString frame ++ ("." ++ strToLower fmt))

/-- The runtime state of class RenderJob (source lines 71 to 78): the
camera setting it was built from, the parsed frame list, the two flags,
and the output filepath recorded from the scene at construction. -/
structure RenderJob where
  cam_setting : CameraSettings
  frames : List Int
  is_running : Bool
  is_cancelled : Bool
  original_filepath : String
deriving DecidableEq, Repr

/-- The RenderJob constructor (source lines 72 to 77): parse the frame
ranges of the setting and record the current render output filepath of
the scene.  An error value models the uncaught exception propagating
out of the constructor when parsing raises. -/
def RenderJob.init (cs : CameraSettings) (s : Scene) : Except (List Char) RenderJob :=
  match parse_frame_ranges cs.frame_ranges with
  | .error e => .error e
  | .ok (fs, _) =>
    .ok { cam_setting := cs, frames := fs, is_running := false, is_cancelled := false,
          original_filepath := s.filepath }

/-- Result of RenderJob.finish: the updated job, the updated scene,
and whether the closing print of finish raised.  The raised flag is
true exactly when the job has no assigned camera, because the print at
source line 134 reads the name attribute of the camera and None has no
such attribute; the two mutations of lines 132 and 133 have already
happened when that AttributeError is raised. -/
structure FinishResult where
  job : RenderJob
  scene : Scene
  raised : Bool
deriving DecidableEq, Repr

/-- RenderJob.finish (source lines 131 to 134): mark the job idle and
restore the render output filepath of the scene to the one recorded at
construction; nothing else of the scene changes.  The closing print of
line 134 then raises an uncaught AttributeError when the job has no
assigned camera, recorded in the raised flag. -/
def RenderJob.finish (j : RenderJob) (s : Scene) : FinishResult :=
  ⟨{ j with is_running := false }, { s with filepath := j.original_filepath },
   j.cam_setting.camera.isNone⟩

/-- Result of one synchronous run of render next frame, start, or the
render post handler: the updated job, the updated scene, whether a
render operation was invoked and is now in flight, and whether an
uncaught exception was raised (it propagates out of the method; the
state fields record the mutations already performed before the
raise). -/
structure RenderStep where
  job : RenderJob
  scene : Scene
  invoked : Bool
  raised : Bool
deriving DecidableEq, Repr

/-- The recursion of RenderJob.render next frame (source lines 102 to
121) written over the remaining frame list, which is the only job field
the recursion changes; the camera setting, the cancel flag and the
recorded output filepath stay fixed and are passed through.  Each call
pops the head frame, sets the current frame of the scene and the output
filepath for that frame, and then either skips the frame when overwrite
is disabled and the file already exists on disk, invokes a render, or,
with no frames left (or a cancelled job), finishes the job. -/
def renderLoop (name : String) (cs : CameraSettings) (cancelled : Bool) (orig : String)
    (files : List String) : List Int → Scene → RenderStep
  | frame :: rest, s =>
    if cancelled then
      let p := RenderJob.finish ⟨cs, frame :: rest, false, cancelled, orig⟩ s
      ⟨p.job, p.scene, false, p.raised⟩
    else
      let s1 : Scene := { s with frame_current := frame }
      let fp := frameOutputPath orig name frame s.file_format
      let s2 : Scene := { s1 with filepath := fp }
      if !s2.use_overwrite && files.contains (bpy_path_abspath s2.blend_dir fp) then
        renderLoop name cs cancelled orig files rest s2
      else
        ⟨⟨cs, rest, true, cancelled, orig⟩, s2, true, false⟩
  | [], s =>
    let p := RenderJob.finish ⟨cs, [], false, cancelled, orig⟩ s
    ⟨p.job, p.scene, false, p.raised⟩

/-- RenderJob.render next frame (source lines 102 to 121) for the job
whose assigned camera has the given name; every caller in the source
reaches this method only with an assigned camera, whose name the method
reads. -/
def render_next_frame (name : String) (j : RenderJob) (s : Scene) (files : List String) :
    RenderStep :=
  renderLoop name j.cam_setting j.is_cancelled j.original_filepath files j.frames s

/-- RenderJob.start (source lines 92 to 100): with no assigned camera
the skip diagnostic is printed, finish runs (so the scene camera is
not touched and no render is invoked) and the AttributeError of its
closing print propagates out of start; otherwise the scene camera is
set to the assigned camera and the first frame is processed. -/
def RenderJob.start (j : RenderJob) (s : Scene) (files : List String) : RenderStep :=
  match j.cam_setting.camera with
  | none =>
    let p := RenderJob.finish j s
    ⟨p.job, p.scene, false, p.raised⟩
  | some name => render_next_frame name j { s with camera := some name } files

/-- RenderJob.render post handler (source lines 123 to 129): when the
host reports a finished render, the job is marked idle and, unless it
was cancelled, the next frame is processed at once. -/
def render_post_handler (name : String) (j : RenderJob) (s : Scene) (files : List String) :
    RenderStep :=
  let j1 : RenderJob := { j with is_running := false }
  if j1.is_cancelled then ⟨j1, s, false, false⟩
  else render_next_frame name j1 s files

/-- The operator return values of the host API used by the source. -/
inductive OpReturn
  | FINISHED
  | CANCELLED
  | RUNNING_MODAL
  | PASS_THROUGH
deriving DecidableEq, Repr

/-- Result of RenderOperator.execute: the constructed job queue, the
returned status, the reported warning when there is one, and whether a
modal handler was added to the window manager. -/
structure ExecResult where
  jobs : List RenderJob
  status : OpReturn
  warning : Option String
  modal_handler_added : Bool
deriving DecidableEq, Repr

/-- The job list comprehension of execute (source line 144): one
RenderJob per camera setting that has an assigned camera, constructed
left to right against the same scene; the first constructor that raises
aborts execute. -/
def initJobs (s : Scene) : List CameraSettings → Except (List Char) (List RenderJob)
  | [] => .ok []
  | cs :: rest =>
    match RenderJob.init cs s with
    | .error e => .error e
    | .ok j =>
      match initJobs s rest with
      | .error e => .error e
      | .ok js => .ok (j :: js)

/-- RenderOperator.execute (source lines 143 to 152): build the job
queue from the settings that have a camera, return CANCELLED with a
warning and no modal handler when it is empty, and otherwise add the
modal handler and return RUNNING MODAL.  The scene is returned
unchanged because the method only reads it. -/
def RenderOperator.execute (settings : List CameraSettings) (s : Scene) :
    Except (List Char) (ExecResult × Scene) :=
  match initJobs s (settings.filter fun cs => cs.camera.isSome) with
  | .error e => .error e
  | .ok jobs =>
    if jobs.isEmpty then
      .ok ({ jobs := jobs, status := .CANCELLED,
             warning := some "No valid render jobs found. Please add camera settings.",
             modal_handler_added := false }, s)
    else
      .ok ({ jobs := jobs, status := .RUNNING_MODAL, warning := none,
             modal_handler_added := true }, s)

/-- The mutable operator state of RenderOperator: the queued jobs and
the current job. -/
structure OperatorState where
  jobs : List RenderJob
  current : Option RenderJob
deriving DecidableEq, Repr

/-- The guard of the modal method at source line 156: the current job
is absent or no longer running. -/
def currentIdle (op : OperatorState) : Bool :=
  match op.current with
  | none => true
  | some j => !j.is_running

/-- Result of one call of RenderOperator.modal: the updated operator
state and scene, the returned status, whether this call invoked a
render, and whether an uncaught exception was raised inside the call
(when raised is true the status is never actually returned, because
the exception propagates out of the method; the state fields record
the mutations already performed). -/
structure ModalOut where
  op : OperatorState
  scene : Scene
  status : OpReturn
  invoked : Bool
  raised : Bool
deriving DecidableEq, Repr

/-- Result of RenderOperator.cancel: the updated operator state and
scene, and whether finishing the current job raised (only possible for
a job with no assigned camera). -/
structure CancelResult where
  op : OperatorState
  scene : Scene
  raised : Bool
deriving DecidableEq, Repr

/-- RenderOperator.cancel (source lines 165 to 169): finish the current
job when there is one and report CANCELLED. -/
def RenderOperator.cancel (op : OperatorState) (s : Scene) : CancelResult :=
  match op.current with
  | none => ⟨op, s, false⟩
  | some j =>
    let p := RenderJob.finish j s
    ⟨{ op with current := some p.job }, p.scene, p.raised⟩

/-- RenderOperator.modal (source lines 154 to 163) on one host event,
identified by its type string: on a timer event with an absent or idle
current job, the next queued job is popped and started, or the whole
batch is cancelled when the queue is empty; every other case passes the
event through with nothing changed. -/
def RenderOperator.modal (op : OperatorState) (s : Scene) (files : List String)
    (event_type : String) : ModalOut :=
  if event_type = "TIMER" then
    if currentIdle op then
      match op.jobs with
      | j :: rest =>
        let st := j.start s files
        ⟨{ jobs := rest, current := some st.job }, st.scene, .PASS_THROUGH, st.invoked,
         st.raised⟩
      | [] =>
        let p := RenderOperator.cancel op s
        ⟨p.op, p.scene, .CANCELLED, false, p.raised⟩
    else ⟨op, s, .PASS_THROUGH, false, false⟩
  else ⟨op, s, .PASS_THROUGH, false, false⟩

/-- The skip condition of source line 113 for one frame of one job:
overwrite is disabled and the absolute output file for the frame is
already on disk.  It depends only on data the render recursion never
changes. -/
def skipCond (name orig fmt blend_dir : String) (overwrite : Bool) (files : List String)
    (f : Int) : Bool :=
  !overwrite && files.contains (bpy_path_abspath blend_dir (frameOutputPath orig name f fmt))

example : parse_frame_ranges "11,25,250" = .ok ([11, 25, 250], []) := rfl
example : parse_frame_ranges "25-40" =
    .ok ([25,26,27,28,29,30,31,32,33,34,35,36,37,38,39,40], []) := rfl
example : parse_frame_ranges "3,x,5" = .ok ([3, 5], [['x']]) := rfl
example : parse_frame_ranges "a-b" = .error ['a', '-', 'b'] := rfl
example : parse_frame_ranges "10-5" = .ok ([], []) := rfl
example : parse_frame_ranges "1-2-3" = .error ['1', '-', '2', '-', '3'] := rfl
example : parse_frame_ranges "-5" = .error ['-', '5'] := rfl
example : parse_frame_ranges "" = .ok ([], [[]]) := rfl
example : parse_frame_ranges " 7 " = .ok ([7], []) := rfl

theorem dropWhile_eq_self_of_all_false {α : Type} (p : α → Bool) (l : List α)
    (h : ∀ c ∈ l, p c = false) : l.dropWhile p = l := by
  cases l with
  | nil => rfl
  | cons a l =>
    rw [List.dropWhile_cons_of_neg]
    simp [h a (by simp)]

theorem digit_not_pyspace (c : Char) (h : c.isDigit = true) : pyIsSpace c = false := by
  cases hsp : pyIsSpace c with
  | false => rfl
  | true =>
    exfalso
    unfold pyIsSpace at hsp
    simp only [Bool.or_eq_true, decide_eq_true_eq] at hsp
    rcases hsp with ((((h1 | h2) | h3) | h4) | h5) | h6 <;> subst_vars <;>
      exact absurd h (by decide)

theorem pyStrip_digits (t : List Char) (h : t.all Char.isDigit = true) :
    pyStrip t = t := by
  have hall : ∀ c ∈ t, pyIsSpace c = false := by
    intro c hc
    exact digit_not_pyspace c (by simpa using List.all_eq_true.mp h c hc)
  unfold pyStrip
  rw [dropWhile_eq_self_of_all_false _ _ hall,
      dropWhile_eq_self_of_all_false _ _ (by intro c hc; exact hall c (by simpa using hc)),
      List.reverse_reverse]

theorem pyInt_digits (t : List Char) (hne : t.isEmpty = false)
    (h : t.all Char.isDigit = true) : pyInt t = some (digitsToNat t : Int) := by
  unfold pyInt
  rw [pyStrip_digits t h]
  cases t with
  | nil => simp at hne
  | cons c rest =>
    have hc : c.isDigit = true := by
      simpa using List.all_eq_true.mp h c (by simp)
    have hcm : ¬(c = '-') := by
      intro hcc
      subst hcc
      exact absurd hc (by decide)
    have hcp : ¬(c = '+') := by
      intro hcc
      subst hcc
      exact absurd hc (by decide)
    simp [hcm, hcp, h]

theorem digit_token_no_dash (t : List Char) (h : t.all Char.isDigit = true) :
    t.contains '-' = false := by
  cases hc : t.contains '-' with
  | false => rfl
  | true =>
    exfalso
    have hm : '-' ∈ t := by
      have := List.elem_iff.mp hc
      simpa using this
    have := List.all_eq_true.mp h _ hm
    simp at this

theorem splitOnChar_of_not_mem (sep : Char) (t : List Char) (h : ¬ sep ∈ t) :
    splitOnChar sep t = [t] := by
  induction t with
  | nil => rfl
  | cons c rest ih =>
    have hcs : ¬(c = sep) := by
      intro hc
      exact h (by simp [hc])
    have hrest : ¬ sep ∈ rest := by
      intro hr
      exact h (by simp [hr])
    unfold splitOnChar
    rw [if_neg hcs, ih hrest]

theorem contains_dash_of_split_pair (t a b : List Char)
    (h : splitOnChar '-' t = [a, b]) : t.contains '-' = true := by
  cases hc : t.contains '-' with
  | true => rfl
  | false =>
    exfalso
    have hm : ¬ '-' ∈ t := by
      intro hmem
      have := List.elem_eq_true_of_mem (Eq.refl '-' ▸ hmem)
      rw [show List.elem '-' t = t.contains '-' from rfl, hc] at this
      exact Bool.false_ne_true this
    rw [splitOnChar_of_not_mem '-' t hm] at h
    exact absurd h (by simp)

theorem pyRange_empty (a b : Int) (h : b ≤ a) : pyRange a b = [] := by
  unfold pyRange
  rw [Int.toNat_of_nonpos (by omega)]
  rfl

theorem parseToken_wellFormed (t : List Char) (h : wellFormedToken t = true) :
    parseToken t = .ok (claimExpansion t, []) := by
  unfold wellFormedToken at h
  rw [Bool.or_eq_true] at h
  cases h with
  | inl hd =>
    have hne : t.isEmpty = false := by
      unfold isDigitToken at hd
      cases he : t.isEmpty <;> simp [he] at hd ⊢
    have hall : t.all Char.isDigit = true := by
      unfold isDigitToken at hd
      exact (Bool.and_eq_true_iff.mp hd).2
    unfold parseToken claimExpansion
    rw [digit_token_no_dash t hall, pyInt_digits t hne hall, if_pos hd]
    rfl
  | inr hr =>
    cases hsplit : splitOnChar '-' t with
    | nil => rw [hsplit] at hr; simp at hr
    | cons x xs =>
      cases xs with
      | nil => rw [hsplit] at hr; simp at hr
      | cons y ys =>
        cases ys with
        | cons z zs => rw [hsplit] at hr; simp at hr
        | nil =>
          rw [hsplit] at hr
          simp only [Bool.and_eq_true, decide_eq_true_eq] at hr
          obtain ⟨⟨hx, hy⟩, _⟩ := hr
          have hxe : x.isEmpty = false := by
            unfold isDigitToken at hx
            cases he : x.isEmpty <;> simp [he] at hx ⊢
          have hxa : x.all Char.isDigit = true := by
            unfold isDigitToken at hx
            exact (Bool.and_eq_true_iff.mp hx).2
          have hye : y.isEmpty = false := by
            unfold isDigitToken at hy
            cases he : y.isEmpty <;> simp [he] at hy ⊢
          have hya : y.all Char.isDigit = true := by
            unfold isDigitToken at hy
            exact (Bool.and_eq_true_iff.mp hy).2
          have htd : isDigitToken t = false := by
            cases htt : isDigitToken t with
            | false => rfl
            | true =>
              exfalso
              have hta : t.all Char.isDigit = true := by
                unfold isDigitToken at htt
                exact (Bool.and_eq_true_iff.mp htt).2
              have := contains_dash_of_split_pair t x y hsplit
              rw [digit_token_no_dash t hta] at this
              exact Bool.false_ne_true this
          unfold parseToken claimExpansion
          rw [contains_dash_of_split_pair t x y hsplit, hsplit, htd]
          simp [pyInt_digits x hxe hxa, pyInt_digits y hye hya]

theorem parseToken_lenient (t : List Char)
    (h : t.contains '-' = true → validRangeToken t = true) :
    parseToken t = .ok (lenientFrames t, lenientDiags t) := by
  cases hc : t.contains '-' with
  | false =>
    unfold parseToken lenientFrames lenientDiags
    rw [hc]
    simp only [Bool.false_eq_true, if_false]
    cases hp : pyInt t <;> simp [hp]
  | true =>
    have hv := h hc
    unfold validRangeToken at hv
    unfold parseToken lenientFrames lenientDiags
    rw [hc]
    simp only [if_pos rfl]
    cases hsplit : splitOnChar '-' t with
    | nil => rw [hsplit] at hv; simp at hv
    | cons x xs =>
      cases xs with
      | nil => rw [hsplit] at hv; simp at hv
      | cons y ys =>
        cases ys with
        | cons z zs => rw [hsplit] at hv; simp at hv
        | nil =>
          rw [hsplit] at hv
          simp only [Bool.and_eq_true, Option.isSome_iff_exists] at hv
          obtain ⟨⟨vx, hvx⟩, ⟨vy, hvy⟩⟩ := hv
          simp [hvx, hvy]

theorem parseFrames_ok (F : List Char → List Int) (G : List Char → List (List Char)) :
    ∀ toks : List (List Char), (∀ t ∈ toks, parseToken t = .ok (F t, G t)) →
      parseFrames toks = .ok ((toks.map F).flatten, (toks.map G).flatten) := by
  intro toks
  induction toks with
  | nil => intro _; rfl
  | cons t ts ih =>
    intro h
    unfold parseFrames
    rw [h t (by simp), ih (by intro u hu; exact h u (by simp [hu]))]
    simp [List.flatten]

theorem flatten_map_nil {α β : Type} (l : List α) :
    (l.map (fun _ => ([] : List β))).flatten = [] := by
  induction l with
  | nil => rfl
  | cons a l ih => simp [ih]

/-- Claim C1: for every frame-range string whose comma-separated tokens
are all well formed (a single decimal integer, or a start-end pair of
integers with start at most end), parsing returns the concatenation, in
token order, of the expansion of each token, a single integer expanding
to that one frame and a start-end pair to the inclusive ascending
sequence from start to end. -/
theorem claim1_parse_wellformed (s : String)
    (h : ∀ t ∈ splitOnChar ',' s.toList, wellFormedToken t = true) :
    parse_frame_ranges s =
      .ok (((splitOnChar ',' s.toList).map claimExpansion).flatten, []) := by
  unfold parse_frame_ranges
  rw [parseFrames_ok claimExpansion (fun _ => [])
        (splitOnChar ',' s.toList)
        (fun t ht => parseToken_wellFormed t (h t ht)),
      flatten_map_nil]

/-- Witness for claim C1 at the concrete input 3,10-12. -/
theorem claim1_witness : parse_frame_ranges "3,10-12" = .ok ([3, 10, 11, 12], []) :=
  (claim1_parse_wellformed "3,10-12" (by decide)).trans rfl

/-- Counterexample to claim C2 as stated: the token a-b contains a dash
but is not a start-end pair of integers, and parsing the string a-b
raises an uncaught ValueError (modelled as an error value) instead of
skipping the token. -/
theorem claim2_counterexample : parse_frame_ranges "a-b" = .error ['a', '-', 'b'] := rfl

/-- Claim C2 as amended: provided every token containing a dash is a
valid start-end pair (so no uncaught exception is raised), parsing
succeeds; each remaining token contributes its expansion in order, and
every dashless token that fails to parse as an integer contributes no
frames and exactly one diagnostic. -/
theorem claim2_lenient_parse (s : String)
    (h : ∀ t ∈ splitOnChar ',' s.toList, t.contains '-' = true → validRangeToken t = true) :
    parse_frame_ranges s =
      .ok (((splitOnChar ',' s.toList).map lenientFrames).flatten,
           ((splitOnChar ',' s.toList).map lenientDiags).flatten) :=
  parseFrames_ok lenientFrames lenientDiags (splitOnChar ',' s.toList)
    (fun t ht => parseToken_lenient t (h t ht))

/-- Witness for the amended claim C2 at the concrete input 5,x,7-9: the
token x is skipped with one diagnostic, the others contribute their
frames. -/
theorem claim2_witness : parse_frame_ranges "5,x,7-9" = .ok ([5, 7, 8, 9], [['x']]) :=
  (claim2_lenient_parse "5,x,7-9" (by decide)).trans rfl

/-- Counterexample to claim C3 as stated: the descending range token
10-5 does not make parsing throw; the call returns successfully with no
frames at all. -/
theorem claim3_counterexample : parse_frame_ranges "10-5" = .ok ([], []) := rfl

/-- Claim C3 as amended: a start-end token with start greater than end
does not raise; it is parsed successfully and expands to the empty
sequence, contributing no frames and no diagnostic. -/
theorem claim3_descending_empty (t a b : List Char) (x y : Int)
    (hsplit : splitOnChar '-' t = [a, b]) (ha : pyInt a = some x)
    (hb : pyInt b = some y) (hdesc : y < x) :
    parseToken t = .ok ([], []) := by
  have hc := contains_dash_of_split_pair t a b hsplit
  unfold parseToken
  rw [hc, hsplit]
  simp [ha, hb, pyRange_empty x (y + 1) (by omega)]

/-- Witness for the amended claim C3 at the concrete token 10-5. -/
theorem claim3_witness : parseToken ['1', '0', '-', '5'] = .ok ([], []) :=
  claim3_descending_empty ['1', '0', '-', '5'] ['1', '0'] ['5'] 10 5 rfl rfl rfl (by decide)

theorem renderLoop_nil (name : String) (cs : CameraSettings) (cancelled : Bool)
    (orig : String) (files : List String) (s : Scene) :
    renderLoop name cs cancelled orig files [] s =
      ⟨⟨cs, [], false, cancelled, orig⟩, { s with filepath := orig }, false,
       cs.camera.isNone⟩ := rfl

theorem renderLoop_skip (name : String) (cs : CameraSettings) (orig : String)
    (files : List String) (f : Int) (rest : List Int) (s : Scene)
    (h : skipCond name orig s.file_format s.blend_dir s.use_overwrite files f = true) :
    renderLoop name cs false orig files (f :: rest) s =
      renderLoop name cs false orig files rest
        { s with frame_current := f, filepath := frameOutputPath orig name f s.file_format } := by
  unfold skipCond at h
  obtain ⟨h1, h2⟩ := Bool.and_eq_true_iff.mp h
  have hov : s.use_overwrite = false := by simpa using h1
  have hmem : bpy_path_abspath s.blend_dir (frameOutputPath orig name f s.file_format) ∈ files :=
    List.elem_iff.mp h2
  simp [renderLoop, hov, hmem]

theorem renderLoop_render (name : String) (cs : CameraSettings) (orig : String)
    (files : List String) (f : Int) (rest : List Int) (s : Scene)
    (h : skipCond name orig s.file_format s.blend_dir s.use_overwrite files f = false) :
    renderLoop name cs false orig files (f :: rest) s =
      ⟨⟨cs, rest, true, false, orig⟩,
       { s with frame_current := f, filepath := frameOutputPath orig name f s.file_format },
       true, false⟩ := by
  unfold skipCond at h
  cases hov : s.use_overwrite with
  | true => simp [renderLoop, hov]
  | false =>
    rw [hov] at h
    have hnmem : ¬ bpy_path_abspath s.blend_dir (frameOutputPath orig name f s.file_format)
        ∈ files := by
      intro hm
      have hcont : files.contains
          (bpy_path_abspath s.blend_dir (frameOutputPath orig name f s.file_format)) = true :=
        List.elem_eq_true_of_mem hm
      rw [hcont] at h
      simp at h
    simp [renderLoop, hov, hnmem]

theorem renderLoop_char (name : String) (cs : CameraSettings) (orig : String)
    (files : List String) :
    ∀ (fr : List Int) (s : Scene),
      (fr.all (skipCond name orig s.file_format s.blend_dir s.use_overwrite files) = true ∧
       ∃ fin : Scene,
         renderLoop name cs false orig files fr s =
           ⟨⟨cs, [], false, false, orig⟩, fin, false, cs.camera.isNone⟩ ∧
         fin.filepath = orig ∧ fin.camera = s.camera ∧ fin.use_overwrite = s.use_overwrite ∧
         fin.file_format = s.file_format ∧ fin.blend_dir = s.blend_dir) ∨
      (∃ pre f rest,
         fr = pre ++ f :: rest ∧
         pre.all (skipCond name orig s.file_format s.blend_dir s.use_overwrite files) = true ∧
         skipCond name orig s.file_format s.blend_dir s.use_overwrite files f = false ∧
         renderLoop name cs false orig files fr s =
           ⟨⟨cs, rest, true, false, orig⟩,
            { s with frame_current := f,
                     filepath := frameOutputPath orig name f s.file_format },
            true, false⟩) := by
  intro fr
  induction fr with
  | nil =>
    intro s
    left
    exact ⟨rfl, { s with filepath := orig }, rfl, rfl, rfl, rfl, rfl, rfl⟩
  | cons f rest ih =>
    intro s
    cases hskip : skipCond name orig s.file_format s.blend_dir s.use_overwrite files f with
    | true =>
      have hred := renderLoop_skip name cs orig files f rest s hskip
      rcases ih { s with frame_current := f,
                         filepath := frameOutputPath orig name f s.file_format } with
        ⟨hall, fin, heq, hfp, hcam, hov, hfmt, hbd⟩ | ⟨pre, g, rest2, hfr, hpre, hg, heq⟩
      · left
        refine ⟨by simp [hskip, hall], fin, hred.trans heq, hfp, hcam, hov, hfmt, hbd⟩
      · right
        refine ⟨f :: pre, g, rest2, by simp [hfr], by simp [hskip, hpre], hg,
                hred.trans heq⟩
    | false =>
      right
      exact ⟨[], f, rest, rfl, rfl, hskip, renderLoop_render name cs orig files f rest s hskip⟩

theorem render_next_frame_char (name : String) (files : List String) (j : RenderJob)
    (s : Scene) (hc : j.is_cancelled = false) :
    (j.frames.all (skipCond name j.original_filepath s.file_format s.blend_dir
        s.use_overwrite files) = true ∧
     ∃ fin : Scene,
       render_next_frame name j s files =
         ⟨{ j with frames := [], is_running := false }, fin, false,
          j.cam_setting.camera.isNone⟩ ∧
       fin.filepath = j.original_filepath ∧ fin.camera = s.camera ∧
       fin.use_overwrite = s.use_overwrite ∧ fin.file_format = s.file_format ∧
       fin.blend_dir = s.blend_dir) ∨
    (∃ pre f rest,
       j.frames = pre ++ f :: rest ∧
       pre.all (skipCond name j.original_filepath s.file_format s.blend_dir
         s.use_overwrite files) = true ∧
       skipCond name j.original_filepath s.file_format s.blend_dir s.use_overwrite files f
         = false ∧
       render_next_frame name j s files =
         ⟨{ j with frames := rest, is_running := true },
          { s with frame_current := f,
                   filepath := frameOutputPath j.original_filepath name f s.file_format },
          true, false⟩) := by
  obtain ⟨cs, fr, run, canc, orig⟩ := j
  simp only at hc
  subst hc
  exact renderLoop_char name cs orig files fr s

theorem init_original_filepath (cs : CameraSettings) (s : Scene) (j : RenderJob)
    (h : RenderJob.init cs s = .ok j) : j.original_filepath = s.filepath := by
  unfold RenderJob.init at h
  cases hp : parse_frame_ranges cs.frame_ranges with
  | error e => rw [hp] at h; exact absurd h (by simp)
  | ok v =>
    rw [hp] at h
    obtain ⟨fs, ds⟩ := v
    simp only [Except.ok.injEq] at h
    subst h
    rfl

theorem init_cam_setting (cs : CameraSettings) (s : Scene) (j : RenderJob)
    (h : RenderJob.init cs s = .ok j) : j.cam_setting = cs := by
  unfold RenderJob.init at h
  cases hp : parse_frame_ranges cs.frame_ranges with
  | error e => rw [hp] at h; exact absurd h (by simp)
  | ok v =>
    rw [hp] at h
    obtain ⟨fs, ds⟩ := v
    simp only [Except.ok.injEq] at h
    subst h
    rfl

theorem initJobs_spec (s : Scene) :
    ∀ (l : List CameraSettings) (jobs : List RenderJob), initJobs s l = .ok jobs →
      jobs.length = l.length ∧
      ∀ jb ∈ jobs, ∃ cs ∈ l, RenderJob.init cs s = .ok jb := by
  intro l
  induction l with
  | nil =>
    intro jobs h
    simp only [initJobs, Except.ok.injEq] at h
    subst h
    exact ⟨rfl, by simp⟩
  | cons cs rest ih =>
    intro jobs h
    unfold initJobs at h
    cases hj : RenderJob.init cs s with
    | error e => rw [hj] at h; exact absurd h (by simp)
    | ok j =>
      rw [hj] at h
      cases hrest : initJobs s rest with
      | error e => rw [hrest] at h; exact absurd h (by simp)
      | ok js =>
        rw [hrest] at h
        simp only [Except.ok.injEq] at h
        subst h
        obtain ⟨hlen, hmem⟩ := ih js hrest
        refine ⟨by simp [hlen], ?_⟩
        intro jb hjb
        rcases List.mem_cons.mp hjb with hhd | htl
        · exact ⟨cs, by simp, hhd ▸ hj⟩
        · obtain ⟨cs2, hcs2, hini⟩ := hmem jb htl
          exact ⟨cs2, by simp [hcs2], hini⟩

theorem execute_jobs (settings : List CameraSettings) (s : Scene) (res : ExecResult)
    (s2 : Scene) (h : RenderOperator.execute settings s = .ok (res, s2)) :
    initJobs s (settings.filter fun cs => cs.camera.isSome) = .ok res.jobs ∧ s2 = s := by
  unfold RenderOperator.execute at h
  cases hinit : initJobs s (settings.filter fun cs => cs.camera.isSome) with
  | error e => rw [hinit] at h; exact absurd h (by simp)
  | ok jobs =>
    rw [hinit] at h
    cases he : jobs.isEmpty with
    | true =>
      simp only [he, if_true, Except.ok.injEq, Prod.mk.injEq] at h
      obtain ⟨hres, hs⟩ := h
      subst hres
      exact ⟨rfl, hs.symm⟩
    | false =>
      simp only [he, Bool.false_eq_true, if_false, Except.ok.injEq, Prod.mk.injEq] at h
      obtain ⟨hres, hs⟩ := h
      subst hres
      exact ⟨rfl, hs.symm⟩

/-- Claim C4: render jobs run one at a time in configured order, frames
within a job render one at a time in parsed order, a job finishes
exactly when its frame list is exhausted, and the batch cancels itself
exactly when the job queue is exhausted and the current job is idle.
The conjuncts state: a timer event with an idle current job pops and
starts exactly the head of the queue; a timer event with an idle
current job and an empty queue returns CANCELLED; a timer event with a
running current job changes nothing; CANCELLED is returned only on a
timer event with an empty queue and an idle current job; the render
finished handler marks the job idle and, uncancelled, processes the
next frame at once; and one run of render next frame either finishes
the job with its frame list exhausted because every remaining frame was
skipped, or renders the first unskipped remaining frame, in order,
keeping exactly the frames after it. -/
theorem claim4_sequencing :
    (∀ (op : OperatorState) (s : Scene) (files : List String) (j : RenderJob)
       (rest : List RenderJob), op.jobs = j :: rest → currentIdle op = true →
       RenderOperator.modal op s files "TIMER" =
         ⟨⟨rest, some (j.start s files).job⟩, (j.start s files).scene, .PASS_THROUGH,
          (j.start s files).invoked, (j.start s files).raised⟩) ∧
    (∀ (op : OperatorState) (s : Scene) (files : List String),
       op.jobs = [] → currentIdle op = true →
       (RenderOperator.modal op s files "TIMER").status = .CANCELLED) ∧
    (∀ (op : OperatorState) (s : Scene) (files : List String) (j : RenderJob),
       op.current = some j → j.is_running = true →
       RenderOperator.modal op s files "TIMER" = ⟨op, s, .PASS_THROUGH, false, false⟩) ∧
    (∀ (op : OperatorState) (s : Scene) (files : List String) (ev : String),
       (RenderOperator.modal op s files ev).status = .CANCELLED →
       ev = "TIMER" ∧ op.jobs = [] ∧ currentIdle op = true) ∧
    (∀ (name : String) (j : RenderJob) (s : Scene) (files : List String),
       j.is_cancelled = false →
       render_post_handler name j s files =
         render_next_frame name { j with is_running := false } s files) ∧
    (∀ (name : String) (j : RenderJob) (s : Scene) (files : List String),
       j.is_cancelled = false →
       (j.frames.all (skipCond name j.original_filepath s.file_format s.blend_dir
          s.use_overwrite files) = true ∧
        ∃ fin : Scene,
          render_next_frame name j s files =
            ⟨{ j with frames := [], is_running := false }, fin, false,
             j.cam_setting.camera.isNone⟩ ∧
          fin.filepath = j.original_filepath ∧ fin.camera = s.camera ∧
          fin.use_overwrite = s.use_overwrite ∧ fin.file_format = s.file_format ∧
          fin.blend_dir = s.blend_dir) ∨
       (∃ pre f rest,
          j.frames = pre ++ f :: rest ∧
          pre.all (skipCond name j.original_filepath s.file_format s.blend_dir
            s.use_overwrite files) = true ∧
          skipCond name j.original_filepath s.file_format s.blend_dir s.use_overwrite files f
            = false ∧
          render_next_frame name j s files =
            ⟨{ j with frames := rest, is_running := true },
             { s with frame_current := f,
                      filepath := frameOutputPath j.original_filepath name f s.file_format },
             true, false⟩)) := by
  refine ⟨?_, ?_, ?_, ?_, ?_, ?_⟩
  · intro op s files j rest hj hidle
    simp [RenderOperator.modal, hidle, hj]
  · intro op s files hj hidle
    simp [RenderOperator.modal, hidle, hj]
  · intro op s files j hcur hrun
    have hidle : currentIdle op = false := by simp [currentIdle, hcur, hrun]
    simp [RenderOperator.modal, hidle]
  · intro op s files ev h
    by_cases hev : ev = "TIMER"
    · subst hev
      cases hidle : currentIdle op with
      | false => simp [RenderOperator.modal, hidle] at h
      | true =>
        cases hj : op.jobs with
        | nil => exact ⟨rfl, rfl, rfl⟩
        | cons j rest => simp [RenderOperator.modal, hidle, hj] at h
    · simp [RenderOperator.modal, hev] at h
  · intro name j s files hc
    simp [render_post_handler, hc]
  · intro name j s files hc
    exact render_next_frame_char name files j s hc

/-- Witness for claim C4: with an empty queue and no current job a
timer event cancels the batch, and the render finished handler of an
uncancelled job marked running continues with render next frame. -/
theorem claim4_witness :
    (RenderOperator.modal ⟨[], none⟩ ⟨1, none, "out", true, "PNG", "d"⟩ [] "TIMER").status
        = .CANCELLED ∧
    render_post_handler "Cam" ⟨⟨some "Cam", "1", true⟩, [1], true, false, "out"⟩
        ⟨1, some "Cam", "out", true, "PNG", "d"⟩ []
      = render_next_frame "Cam" ⟨⟨some "Cam", "1", true⟩, [1], false, false, "out"⟩
          ⟨1, some "Cam", "out", true, "PNG", "d"⟩ [] :=
  ⟨claim4_sequencing.2.1 ⟨[], none⟩ ⟨1, none, "out", true, "PNG", "d"⟩ [] rfl rfl,
   claim4_sequencing.2.2.2.2.1 "Cam" ⟨⟨some "Cam", "1", true⟩, [1], true, false, "out"⟩
     ⟨1, some "Cam", "out", true, "PNG", "d"⟩ [] rfl⟩

/-- Claim C5: when overwrite is disabled and the computed output file
for the head frame already exists on disk, render next frame does not
invoke a render for that frame: it records the frame and its filepath
in the scene and proceeds immediately to the rest of the frame list
(finishing the job if none remain). -/
theorem claim5_skip_existing (name : String) (j : RenderJob) (s : Scene)
    (files : List String) (f : Int) (rest : List Int)
    (hf : j.frames = f :: rest) (hc : j.is_cancelled = false)
    (hov : s.use_overwrite = false)
    (hex : files.contains (bpy_path_abspath s.blend_dir
      (frameOutputPath j.original_filepath name f s.file_format)) = true) :
    render_next_frame name j s files =
      render_next_frame name { j with frames := rest }
        { s with frame_current := f,
                 filepath := frameOutputPath j.original_filepath name f s.file_format }
        files := by
  obtain ⟨cs, fr, run, canc, orig⟩ := j
  simp only at hf hc hex
  subst hf
  subst hc
  unfold render_next_frame
  refine renderLoop_skip name cs orig files f rest s ?_
  simp only [skipCond, hov, Bool.not_false, Bool.true_and]
  exact hex

/-- Witness for claim C5: with overwrite disabled and the output file
of frame 2 on disk, the job skips frame 2 and proceeds to frame 3. -/
theorem claim5_witness :
    render_next_frame "Cam" ⟨⟨some "Cam", "2,3", true⟩, [2, 3], false, false, "out"⟩
        ⟨1, some "Cam", "out", false, "PNG", "d"⟩ ["out/Cam_frame2.png"] =
      render_next_frame "Cam" ⟨⟨some "Cam", "2,3", true⟩, [3], false, false, "out"⟩
        ⟨2, some "Cam", "out/Cam_frame2.png", false, "PNG", "d"⟩ ["out/Cam_frame2.png"] :=
  claim5_skip_existing "Cam" ⟨⟨some "Cam", "2,3", true⟩, [2, 3], false, false, "out"⟩
    ⟨1, some "Cam", "out", false, "PNG", "d"⟩ ["out/Cam_frame2.png"] 2 [3] rfl rfl rfl
    (by decide)

/-- Claim C6: whenever render next frame invokes a render, the output
filepath set in the scene is the path join of the output directory
recorded at job construction with the filename built from the camera
name, the rendered frame number, and the lowercased image format of the
host as extension. -/
theorem claim6_output_path (name : String) (j : RenderJob) (s : Scene) (files : List String)
    (h : (render_next_frame name j s files).invoked = true) :
    (render_next_frame name j s files).scene.filepath =
      os_path_join j.original_filepath
        (name ++ "_frame" ++ toString (render_next_frame name j s files).scene.frame_current
          ++ ("." ++ strToLower s.file_format)) := by
  cases hc : j.is_cancelled with
  | true =>
    exfalso
    obtain ⟨cs, fr, run, canc, orig⟩ := j
    simp only at hc
    subst hc
    unfold render_next_frame at h
    cases fr with
    | nil => simp [renderLoop] at h
    | cons f rest => simp [renderLoop] at h
  | false =>
    rcases render_next_frame_char name files j s hc with
      ⟨_, fin, heq, _⟩ | ⟨pre, f, rest, hfr, hpre, hskip, heq⟩
    · rw [heq] at h
      simp at h
    · rw [heq]
      rfl

/-- Witness for claim C6: rendering frame 7 for camera Cam with output
directory out and format PNG sets the output path to the joined
filename. -/
theorem claim6_witness :
    (render_next_frame "Cam" ⟨⟨some "Cam", "7", true⟩, [7], false, false, "out"⟩
        ⟨1, some "Cam", "out", true, "PNG", "d"⟩ []).scene.filepath =
      os_path_join "out"
        ("Cam" ++ "_frame" ++ toString (render_next_frame "Cam"
            ⟨⟨some "Cam", "7", true⟩, [7], false, false, "out"⟩
            ⟨1, some "Cam", "out", true, "PNG", "d"⟩ []).scene.frame_current
          ++ ("." ++ strToLower "PNG")) :=
  claim6_output_path "Cam" ⟨⟨some "Cam", "7", true⟩, [7], false, false, "out"⟩
    ⟨1, some "Cam", "out", true, "PNG", "d"⟩ [] rfl

/-- Claim C7: finishing a render job restores the render output
filepath of the scene to the one recorded when the job was constructed,
and changes nothing else of the scene; the recorded value is exactly
the scene output filepath at construction time.  The final component
records that the closing print of finish raises only for a job with no
assigned camera, so a completing job, which always has one, finishes
cleanly. -/
theorem claim7_finish_restores :
    (∀ (cs : CameraSettings) (s : Scene) (j : RenderJob),
       RenderJob.init cs s = .ok j → j.original_filepath = s.filepath) ∧
    (∀ (j : RenderJob) (s : Scene),
       RenderJob.finish j s =
         ⟨{ j with is_running := false }, { s with filepath := j.original_filepath },
          j.cam_setting.camera.isNone⟩) :=
  ⟨init_original_filepath, fun _ _ => rfl⟩

/-- Witness for claim C7: a job built from the setting with range 1-3
against a scene with output path out records out and restores it. -/
theorem claim7_witness :
    RenderJob.init ⟨some "Cam", "1-3", true⟩ ⟨1, none, "out", true, "PNG", "d"⟩ =
        .ok ⟨⟨some "Cam", "1-3", true⟩, [1, 2, 3], false, false, "out"⟩ ∧
    (⟨⟨some "Cam", "1-3", true⟩, [1, 2, 3], false, false, "out"⟩ : RenderJob).original_filepath
        = (⟨1, none, "out", true, "PNG", "d"⟩ : Scene).filepath :=
  ⟨rfl, claim7_finish_restores.1 ⟨some "Cam", "1-3", true⟩ ⟨1, none, "out", true, "PNG", "d"⟩
    ⟨⟨some "Cam", "1-3", true⟩, [1, 2, 3], false, false, "out"⟩ rfl⟩

/-- Counterexample to claim C8 as stated: starting this concrete job
with no assigned camera does not let it finish cleanly.  The two
mutations of finish happen (the job is marked idle and the output path
restored, the scene camera untouched, no render invoked), but the
closing print of finish at source line 134 reads the name attribute of
the absent camera, so an uncaught AttributeError propagates out of
start, recorded by the final raised component being true. -/
theorem claim8_counterexample :
    RenderJob.start ⟨⟨none, "1", true⟩, [1], false, false, "out"⟩
        ⟨1, some "B", "p", true, "PNG", "d"⟩ [] =
      ⟨⟨⟨none, "1", true⟩, [1], false, false, "out"⟩, ⟨1, some "B", "out", true, "PNG", "d"⟩,
       false, true⟩ := rfl

/-- Claim C8 as amended: a camera setting with no assigned camera
produces no job in the batch queue (the queue holds exactly one job per
setting with a camera, and every queued job has one); and if a job
without a camera is nevertheless started, no render is invoked and the
scene camera is not set, the job is marked idle and the output path
restored, but the completion message of finish then raises an uncaught
AttributeError instead of returning cleanly. -/
theorem claim8_no_camera :
    (∀ (settings : List CameraSettings) (s : Scene) (res : ExecResult) (s2 : Scene),
       RenderOperator.execute settings s = .ok (res, s2) →
       res.jobs.length = (settings.filter fun cs => cs.camera.isSome).length ∧
       ∀ jb ∈ res.jobs, jb.cam_setting.camera.isSome = true) ∧
    (∀ (j : RenderJob) (s : Scene) (files : List String), j.cam_setting.camera = none →
       RenderJob.start j s files =
         ⟨{ j with is_running := false }, { s with filepath := j.original_filepath },
          false, true⟩) := by
  constructor
  · intro settings s res s2 h
    obtain ⟨hinit, _⟩ := execute_jobs settings s res s2 h
    obtain ⟨hlen, hmem⟩ := initJobs_spec s _ res.jobs hinit
    refine ⟨hlen, ?_⟩
    intro jb hjb
    obtain ⟨cs, hcs, hini⟩ := hmem jb hjb
    rw [init_cam_setting cs s jb hini]
    exact (List.mem_filter.mp hcs).2
  · intro j s files h
    simp [RenderJob.start, RenderJob.finish, h]

/-- Witness for the amended claim C8: of two settings only the one with
a camera yields a job, and starting a camera-less job restores the
output path, invokes no render, and raises. -/
theorem claim8_witness :
    ((⟨[⟨⟨some "A", "2", true⟩, [2], false, false, "out"⟩], .RUNNING_MODAL, none, true⟩
        : ExecResult).jobs.length =
      (([⟨none, "1", true⟩, ⟨some "A", "2", true⟩] : List CameraSettings).filter
        fun cs => cs.camera.isSome).length ∧
     ∀ jb ∈ (⟨[⟨⟨some "A", "2", true⟩, [2], false, false, "out"⟩], .RUNNING_MODAL, none, true⟩
        : ExecResult).jobs, jb.cam_setting.camera.isSome = true) ∧
    RenderJob.start ⟨⟨none, "1", true⟩, [1], false, false, "out"⟩
        ⟨1, some "B", "p", true, "PNG", "d"⟩ [] =
      ⟨⟨⟨none, "1", true⟩, [1], false, false, "out"⟩, ⟨1, some "B", "out", true, "PNG", "d"⟩,
       false, true⟩ :=
  ⟨claim8_no_camera.1 [⟨none, "1", true⟩, ⟨some "A", "2", true⟩]
     ⟨1, none, "out", true, "PNG", "d"⟩
     ⟨[⟨⟨some "A", "2", true⟩, [2], false, false, "out"⟩], .RUNNING_MODAL, none, true⟩
     ⟨1, none, "out", true, "PNG", "d"⟩ rfl,
   claim8_no_camera.2 ⟨⟨none, "1", true⟩, [1], false, false, "out"⟩
     ⟨1, some "B", "p", true, "PNG", "d"⟩ [] rfl⟩

/-- Claim C9: when no configured camera setting has an assigned camera,
execute constructs an empty job list, reports the warning, returns
CANCELLED, adds no modal handler, and leaves the scene unchanged. -/
theorem claim9_empty_batch (settings : List CameraSettings) (s : Scene)
    (h : ∀ cs ∈ settings, cs.camera = none) :
    RenderOperator.execute settings s =
      .ok (⟨[], .CANCELLED, some "No valid render jobs found. Please add camera settings.",
            false⟩, s) := by
  have hfil : settings.filter (fun cs => cs.camera.isSome) = [] := by
    rw [List.filter_eq_nil_iff]
    intro cs hcs
    simp [h cs hcs]
  unfold RenderOperator.execute
  rw [hfil]
  rfl

/-- Witness for claim C9 with one camera-less setting. -/
theorem claim9_witness :
    RenderOperator.execute [⟨none, "4,x", false⟩] ⟨1, some "B", "out", true, "PNG", "d"⟩ =
      .ok (⟨[], .CANCELLED, some "No valid render jobs found. Please add camera settings.",
            false⟩, ⟨1, some "B", "out", true, "PNG", "d"⟩) :=
  claim9_empty_batch [⟨none, "4,x", false⟩] ⟨1, some "B", "out", true, "PNG", "d"⟩
    (by decide)

/-- Claim C10: every job of a batch records the render output filepath
of the scene as it was when execute constructed the queue, before any
job starts; hence finishing any job of the batch, in particular the
last one, sets the scene output filepath back to its pre-batch
value. -/
theorem claim10_restore_invariant (settings : List CameraSettings) (s : Scene)
    (res : ExecResult) (s2 : Scene) (sc : Scene)
    (h : RenderOperator.execute settings s = .ok (res, s2)) :
    (∀ jb ∈ res.jobs, jb.original_filepath = s.filepath) ∧
    (∀ jb ∈ res.jobs, ((RenderJob.finish jb sc).scene).filepath = s.filepath) := by
  obtain ⟨hinit, _⟩ := execute_jobs settings s res s2 h
  obtain ⟨_, hmem⟩ := initJobs_spec s _ res.jobs hinit
  have horig : ∀ jb ∈ res.jobs, jb.original_filepath = s.filepath := by
    intro jb hjb
    obtain ⟨cs, _, hini⟩ := hmem jb hjb
    exact init_original_filepath cs s jb hini
  exact ⟨horig, fun jb hjb => horig jb hjb⟩

/-- Witness for claim C10: a one-job batch whose job recorded the
pre-batch output path out and restores it on any scene it finishes
against. -/
theorem claim10_witness :
    (∀ jb ∈ [(⟨⟨some "A", "2", true⟩, [2], false, false, "out"⟩ : RenderJob)],
       jb.original_filepath = "out") ∧
    (∀ jb ∈ [(⟨⟨some "A", "2", true⟩, [2], false, false, "out"⟩ : RenderJob)],
       ((RenderJob.finish jb ⟨2, some "A", "other", true, "PNG", "d"⟩).scene).filepath
         = "out") :=
  claim10_restore_invariant [⟨some "A", "2", true⟩] ⟨1, none, "out", true, "PNG", "d"⟩
    ⟨[⟨⟨some "A", "2", true⟩, [2], false, false, "out"⟩], .RUNNING_MODAL, none, true⟩
    ⟨1, none, "out", true, "PNG", "d"⟩ ⟨2, some "A", "other", true, "PNG", "d"⟩ rfl
